import Mathlib

/-!
Verification of the magician kernel module core (src/magician.c).

The module keeps one shared in-memory buffer `card` of capacity
`MAX_SIZE = 1024` bytes, a logical length `card_size`, and a one-bit
occupancy flag `already_open` for the exclusive-open data endpoint
`/dev/magician`.  The control endpoint `/proc/magician` overwrites and
reads back the card; the data endpoint replays it cyclically.

The shallow embedding below translates each file operation of the C
source into a pure Lean function on an explicit state.  Bytes are `Nat`
values, the fixed 1024-byte array is a `List Nat` of length `MAX_SIZE`,
per-handle file offsets (`loff_t *offset`) are passed and returned
explicitly, and the possibility that a caller-supplied user-space buffer
faults (`copy_from_user` / `copy_to_user` / `put_user` failing) is an
explicit parameter.  Return codes are `Int` (`ssize_t`): non-negative
counts on success, `-EBUSY` / `-EFAULT` on failure.
-/

namespace Magician

/-- `#define MAX_SIZE 1024` — capacity of the card buffer. -/
def MAX_SIZE : Nat := 1024

/-- Linux error number used by `device_open` (`-EBUSY`). -/
def EBUSY : Int := 16

/-- Linux error number used on user-memory faults (`-EFAULT`). -/
def EFAULT : Int := 14

/-- The module state: the `card` byte array (the C source declares
`static char card[MAX_SIZE]`), its logical length `card_size`
(`static unsigned long card_size = 0`), and the exclusive-open flag
`already_open` (`static atomic_t already_open`), where `false` is
`DEVICE_NOT_USED` and `true` is `DEVICE_EXCLUSIVE_OPEN`. -/
structure MState where
  card : List Nat
  card_size : Nat
  already_open : Bool
deriving DecidableEq, Repr

/-- The state at module load: `card` zeroed (`memset(card, 0, sizeof(card))`),
`card_size = 0`, `already_open = DEVICE_NOT_USED`. -/
def initState : MState :=
  { card := List.replicate MAX_SIZE 0, card_size := 0, already_open := false }

/-- `device_open`: `atomic_cmpxchg(&already_open, DEVICE_NOT_USED,
DEVICE_EXCLUSIVE_OPEN)` — succeeds (returns 0) and marks the device held
exactly when it was free; otherwise returns `-EBUSY` and changes nothing. -/
def device_open (s : MState) : Int × MState :=
  if s.already_open then (-EBUSY, s)
  else (0, { s with already_open := true })

/-- `device_release`: `atomic_set(&already_open, DEVICE_NOT_USED)`;
unconditionally marks the device free and returns 0. -/
def device_release (s : MState) : Int × MState :=
  (0, { s with already_open := false })

/-- The bytes produced by the `device_read` loop when it runs for `k`
iterations: byte `i` is `card[i % card_size]`. -/
def readBytes (s : MState) (k : Nat) : List Nat :=
  (List.range k).map (fun i => s.card.getD (i % s.card_size) 0)

/-- `device_read`: if `card_size == 0` return 0 bytes; otherwise emit
`length` bytes, byte `i` being `card[i % card_size]`, via `put_user`.
`fault = some j` means the user buffer faults at index `j`: if the loop
reaches it the call returns `-EFAULT` with only the first `j` bytes
delivered and the offset not advanced.  On success the offset advances by
`length` and `length` is returned.  Result: (return value, new offset,
bytes delivered to the user buffer). -/
def device_read (length offset : Nat) (fault : Option Nat) (s : MState) :
    Int × Nat × List Nat :=
  if s.card_size = 0 then (0, offset, [])
  else
    match fault with
    | some j =>
        if j < length then (-EFAULT, offset, readBytes s j)
        else ((length : Int), offset + length, readBytes s length)
    | none => ((length : Int), offset + length, readBytes s length)

/-- `device_write`: logs an "operation not supported" alert and returns
`length` unchanged; the state and the offset are untouched. -/
def device_write (length offset : Nat) (s : MState) : Int × Nat × MState :=
  ((length : Int), offset, s)

/-- `procfile_read`: if `*offset > 0 || card_size == 0` return 0 (end of
file).  Otherwise `copy_to_user(buffer, card, card_size)` — note that the
caller's `length` argument is never consulted.  On a fault return
`-EFAULT` with nothing delivered; on success advance the offset by
`card_size` and return `card_size`.  Result: (return value, new offset,
bytes delivered to the user buffer). -/
def procfile_read (length offset : Nat) (fault : Bool) (s : MState) :
    Int × Nat × List Nat :=
  if offset > 0 ∨ s.card_size = 0 then (0, offset, [])
  else if fault then (-EFAULT, offset, [])
  else ((s.card_size : Int), offset + s.card_size, s.card.take s.card_size)

/-- `procfile_write`: sets `card_size = length`, capped at `MAX_SIZE - 1`,
then `copy_from_user(card, buffer, card_size)`.  `fault = some k` means
the user buffer is inaccessible from byte `k` on: when `k` lies inside
the copied range, `copy_from_user` copies the accessible `k`-byte prefix
and zero-pads the remaining `card_size - k` destination bytes (the
kernel's documented short-copy behavior), and the call returns `-EFAULT`
with `card_size` already updated, the offset not advanced and no null
terminator written.  On success it writes the first `card_size` input
bytes into the buffer, null-terminates (`card[card_size] = 0`), advances
the offset and returns `card_size`.  Result: (return value, new offset,
new state). -/
def procfile_write (input : List Nat) (offset : Nat) (fault : Option Nat)
    (s : MState) : Int × Nat × MState :=
  let n := if input.length ≥ MAX_SIZE then MAX_SIZE - 1 else input.length
  match fault with
  | some k =>
      if k < n then
        (-EFAULT, offset,
          { s with
            card := input.take k ++ List.replicate (n - k) 0 ++ s.card.drop n,
            card_size := n })
      else
        ((n : Int), offset + n,
          { s with
            card := input.take n ++ [0] ++ s.card.drop (n + 1),
            card_size := n })
  | none =>
      ((n : Int), offset + n,
        { s with
          card := input.take n ++ [0] ++ s.card.drop (n + 1),
          card_size := n })

/-- The store invariant of the C globals: the buffer has its declared
1024-byte extent and the logical length stays strictly below `MAX_SIZE`. -/
def Inv (s : MState) : Prop :=
  s.card.length = MAX_SIZE ∧ s.card_size < MAX_SIZE

instance (s : MState) : Decidable (Inv s) := by
  unfold Inv; infer_instance

/-- The stored card, `content[0:length]` — what `CardStore.getCard`
exposes: the first `card_size` bytes of the buffer. -/
def storedCard (s : MState) : List Nat :=
  s.card.take s.card_size

/-- The operations a data-endpoint client can perform on the occupancy
flag: opening and closing `/dev/magician`. -/
inductive DevOp where
  | opn
  | cls
deriving DecidableEq, Repr

/-- One occupancy transition together with a ghost count of the successful
opens not yet closed.  An open increments the count only when
`device_open` succeeds (returns 0); a close always runs `device_release`
and retires one outstanding open. -/
def devStep : MState × Nat → DevOp → MState × Nat
  | (s, g), DevOp.opn =>
      ((device_open s).2, if (device_open s).1 = 0 then g + 1 else g)
  | (s, g), DevOp.cls => ((device_release s).2, g - 1)

/-- Run a sequence of open/close calls from the initial state, tracking
the outstanding-successful-open count. -/
def runDev (ops : List DevOp) : MState × Nat :=
  ops.foldl devStep (initState, 0)

/-- Helper: the initial state satisfies the store invariant. -/
theorem Inv_initState : Inv initState :=
  ⟨List.length_replicate MAX_SIZE 0, by decide⟩

/-- Helper: the byte count accepted by `procfile_write` is at most the
input length and strictly below `MAX_SIZE`. -/
theorem procfile_write_cap (input : List Nat) :
    (if input.length ≥ MAX_SIZE then MAX_SIZE - 1 else input.length)
      = min input.length (MAX_SIZE - 1)
    ∧ (if input.length ≥ MAX_SIZE then MAX_SIZE - 1 else input.length)
        ≤ input.length
    ∧ (if input.length ≥ MAX_SIZE then MAX_SIZE - 1 else input.length)
        < MAX_SIZE := by
  have hms : MAX_SIZE = 1024 := rfl
  refine ⟨?_, ?_, ?_⟩ <;> (split <;> omega)

/-- Helper: a control write, faulting or not, preserves the store
invariant. -/
theorem Inv_procfile_write (input : List Nat) (off : Nat) (f : Option Nat)
    (s : MState) (hI : Inv s) : Inv (procfile_write input off f s).2.2 := by
  obtain ⟨h1, h2⟩ := hI
  obtain ⟨-, hle, hlt⟩ := procfile_write_cap input
  have hsucc : Inv ({ s with
      card := input.take
          (if input.length ≥ MAX_SIZE then MAX_SIZE - 1 else input.length)
        ++ [0] ++ s.card.drop
          ((if input.length ≥ MAX_SIZE then MAX_SIZE - 1 else input.length) + 1),
      card_size :=
        if input.length ≥ MAX_SIZE then MAX_SIZE - 1 else input.length } : MState) := by
    refine ⟨?_, hlt⟩
    simp only [List.length_append, List.length_take, List.length_drop,
      List.length_cons, List.length_nil]
    omega
  cases f with
  | none => exact hsucc
  | some k =>
      by_cases hk :
          k < (if input.length ≥ MAX_SIZE then MAX_SIZE - 1 else input.length)
      · have hstate : (procfile_write input off (some k) s).2.2 =
            { s with
              card := input.take k
                ++ List.replicate
                  ((if input.length ≥ MAX_SIZE then MAX_SIZE - 1 else input.length) - k) 0
                ++ s.card.drop
                  (if input.length ≥ MAX_SIZE then MAX_SIZE - 1 else input.length),
              card_size :=
                if input.length ≥ MAX_SIZE then MAX_SIZE - 1 else input.length } := by
          simp only [procfile_write]
          rw [if_pos hk]
        rw [hstate]
        refine ⟨?_, hlt⟩
        simp only [List.length_append, List.length_take, List.length_replicate,
          List.length_drop]
        omega
      · have hstate : (procfile_write input off (some k) s).2.2 =
            { s with
              card := input.take
                  (if input.length ≥ MAX_SIZE then MAX_SIZE - 1 else input.length)
                ++ [0] ++ s.card.drop
                  ((if input.length ≥ MAX_SIZE then MAX_SIZE - 1 else input.length) + 1),
              card_size :=
                if input.length ≥ MAX_SIZE then MAX_SIZE - 1 else input.length } := by
          simp only [procfile_write]
          rw [if_neg hk]
        rw [hstate]
        exact hsucc

/-- Helper: along any open/close trace the ghost count of outstanding
successful opens coincides with the occupancy flag — 1 when held, 0 when
free. -/
theorem foldl_devStep_outstanding (ops : List DevOp) (s : MState) (g : Nat)
    (h : g = if s.already_open then 1 else 0) :
    (List.foldl devStep (s, g) ops).2 =
      if (List.foldl devStep (s, g) ops).1.already_open then 1 else 0 := by
  induction ops generalizing s g with
  | nil => simpa using h
  | cons op ops ih =>
      cases op with
      | opn =>
          by_cases hs : s.already_open
          · simp only [List.foldl_cons, devStep, device_open, hs, if_true]
            apply ih
            simpa [EBUSY, hs] using h
          · simp only [List.foldl_cons, devStep, device_open, hs, if_false]
            apply ih
            simpa [hs] using h
      | cls =>
          simp only [List.foldl_cons, devStep, device_release]
          apply ih
          show g - 1 = 0
          split at h <;> omega

/-- C5: when the store is empty (`card_size = 0`), a data-endpoint read of
any requested length returns 0 bytes and leaves the offset alone, and a
control-endpoint read likewise returns 0 bytes. -/
theorem empty_store_reads_return_zero (n off1 m off2 : Nat) (f : Option Nat)
    (g : Bool) (s : MState) (h : s.card_size = 0) :
    device_read n off1 f s = (0, off1, [])
    ∧ procfile_read m off2 g s = (0, off2, []) := by
  refine ⟨?_, ?_⟩
  · simp [device_read, h]
  · simp [procfile_read, h]

/-- Witness for C5 at the initial state with requested lengths 10. -/
theorem empty_store_reads_return_zero_witness :
    device_read 10 0 none initState = (0, 0, [])
    ∧ procfile_read 10 0 false initState = (0, 0, []) :=
  empty_store_reads_return_zero 10 0 10 0 none false initState rfl

/-- C7: a data-endpoint write returns the input length as the count
consumed (a non-negative, hence successful, return) and leaves the whole
state — card contents, card length, occupancy flag — and the file offset
unchanged. -/
theorem device_write_never_mutates (len off : Nat) (s : MState) :
    device_write len off s = ((len : Int), off, s)
    ∧ (0 : Int) ≤ (len : Int)
    ∧ (device_write len off s).2.2.card = s.card
    ∧ (device_write len off s).2.2.card_size = s.card_size
    ∧ (device_write len off s).2.2.already_open = s.already_open := by
  exact ⟨rfl, Int.natCast_nonneg len, rfl, rfl, rfl⟩

/-- C6: the control read is one-shot per cursor: any read at a cursor
strictly past 0 returns zero bytes and moves nothing, whatever the stored
card or fault condition; and a successful read at cursor 0 advances the
cursor by exactly the number of bytes it returned. -/
theorem procfile_read_one_shot (len off : Nat) (f : Bool) (s : MState) :
    (0 < off → procfile_read len off f s = (0, off, []))
    ∧ (Inv s → s.card_size ≠ 0 →
        procfile_read len 0 false s =
          ((s.card_size : Int), 0 + s.card_size, s.card.take s.card_size)
        ∧ ((procfile_read len 0 false s).2.2).length = s.card_size
        ∧ (procfile_read len 0 false s).2.1 =
            0 + ((procfile_read len 0 false s).2.2).length) := by
  constructor
  · intro hoff
    simp [procfile_read, hoff]
  · intro hI hc
    obtain ⟨h1, h2⟩ := hI
    have hle : s.card_size ≤ s.card.length := by omega
    have hread : procfile_read len 0 false s =
        ((s.card_size : Int), 0 + s.card_size, s.card.take s.card_size) := by
      simp [procfile_read, hc]
    have hlen : ((procfile_read len 0 false s).2.2).length = s.card_size := by
      rw [hread]
      simp only [List.length_take]
      omega
    refine ⟨hread, hlen, ?_⟩
    rw [hlen, hread]

/-- C4: along every open/close trace from the initial state, at most one
successful open is outstanding, and the count is 1 exactly when the flag
is held; moreover at the reached state an open succeeds exactly when the
flag is free (moving it to held), an open while held fails with `-EBUSY`
and changes nothing, a close always frees the flag, and an open right
after a close succeeds. -/
theorem data_endpoint_exclusive_occupancy (ops : List DevOp) :
    (runDev ops).2 ≤ 1
    ∧ ((runDev ops).2 = 1 ↔ (runDev ops).1.already_open = true)
    ∧ ((runDev ops).1.already_open = false →
        device_open (runDev ops).1 =
          (0, { (runDev ops).1 with already_open := true }))
    ∧ ((runDev ops).1.already_open = true →
        device_open (runDev ops).1 = (-EBUSY, (runDev ops).1))
    ∧ (device_release (runDev ops).1).2.already_open = false
    ∧ (device_open ((device_release (runDev ops).1).2)).1 = 0 := by
  have key : (runDev ops).2 = if (runDev ops).1.already_open then 1 else 0 :=
    foldl_devStep_outstanding ops initState 0 rfl
  refine ⟨?_, ?_, ?_, ?_, ?_, ?_⟩
  · rw [key]; split <;> omega
  · rw [key]
    cases h : (runDev ops).1.already_open <;> simp
  · intro h
    simp [device_open, h]
  · intro h
    simp [device_open, h]
  · rfl
  · simp [device_open, device_release]

/-- Witness for C4 on the trace [open]: one open is outstanding, a second
open fails with `-EBUSY`, and after a close the open succeeds. -/
theorem data_endpoint_exclusive_occupancy_witness :
    (runDev [DevOp.opn]).2 = 1
    ∧ device_open (runDev [DevOp.opn]).1 = (-EBUSY, (runDev [DevOp.opn]).1)
    ∧ (device_open ((device_release (runDev [DevOp.opn]).1).2)).1 = 0 := by
  refine ⟨?_, ?_, ?_⟩
  · exact ((data_endpoint_exclusive_occupancy [DevOp.opn]).2.1).2 rfl
  · exact (data_endpoint_exclusive_occupancy [DevOp.opn]).2.2.2.1 rfl
  · exact (data_endpoint_exclusive_occupancy [DevOp.opn]).2.2.2.2.2

/-- C1: with a non-empty card stored, a successful data-endpoint read of
any requested length `n` returns the count `n`, delivers exactly `n`
bytes, and byte `i` equals the stored card at index `i mod len(card)`
for every `i < n`. -/
theorem device_read_cyclic (n off : Nat) (s : MState) (hI : Inv s)
    (h : s.card_size ≠ 0) :
    (device_read n off none s).1 = (n : Int)
    ∧ ((device_read n off none s).2.2).length = n
    ∧ ∀ i < n, ((device_read n off none s).2.2).getD i 0
        = (storedCard s).getD (i % (storedCard s).length) 0 := by
  obtain ⟨h1, h2⟩ := hI
  have hlensc : (storedCard s).length = s.card_size := by
    simp only [storedCard, List.length_take]
    omega
  have hr : device_read n off none s =
      ((n : Int), off + n, readBytes s n) := by
    simp [device_read, h]
  refine ⟨by rw [hr], by rw [hr]; simp [readBytes], ?_⟩
  intro i hi
  rw [hr, hlensc]
  have hmod : i % s.card_size < s.card_size := Nat.mod_lt i (Nat.pos_of_ne_zero h)
  have hmod2 : i % s.card_size < s.card.length := by omega
  show (readBytes s n).getD i 0 = (storedCard s).getD (i % s.card_size) 0
  rw [readBytes, List.getD_eq_getElem?_getD, List.getElem?_map,
    List.getElem?_range hi]
  rw [storedCard, List.getD_eq_getElem?_getD, List.getElem?_take, if_pos hmod,
    List.getElem?_eq_getElem hmod2]
  simp only [Option.map_some', Option.getD_some]
  exact List.getD_eq_getElem s.card 0 hmod2

/-- Witness for C1: card "AB", read of length 3 yields "ABA". -/
theorem device_read_cyclic_witness :
    ((device_read 3 0 none
        (procfile_write [65, 66] 0 none initState).2.2).2.2).getD 2 0
      = (storedCard (procfile_write [65, 66] 0 none initState).2.2).getD
          (2 % (storedCard (procfile_write [65, 66] 0 none initState).2.2).length) 0 :=
  (device_read_cyclic 3 0 (procfile_write [65, 66] 0 none initState).2.2
    (Inv_procfile_write [65, 66] 0 none initState Inv_initState)
    (by decide)).2.2 2 (by omega)

/-- Witness for C6: on card "AB", a read at cursor 3 returns nothing and
a read at cursor 0 advances the cursor by the bytes returned. -/
theorem procfile_read_one_shot_witness :
    procfile_read 5 3 false ((procfile_write [65, 66] 0 none initState).2.2)
      = (0, 3, [])
    ∧ (procfile_read 5 0 false
          ((procfile_write [65, 66] 0 none initState).2.2)).2.1
        = 0 + ((procfile_read 5 0 false
          ((procfile_write [65, 66] 0 none initState).2.2)).2.2).length := by
  refine ⟨?_, ?_⟩
  · exact (procfile_read_one_shot 5 3 false _).1 (by omega)
  · exact ((procfile_read_one_shot 5 0 false _).2
      (Inv_procfile_write [65, 66] 0 none initState Inv_initState)
      (by decide)).2.2

/-- C2: a control write returns and stores exactly
`min(len(input), MAX_SIZE - 1)` bytes; a control read from a fresh cursor
then yields exactly the input when it fits, and exactly its first
`MAX_SIZE - 1` bytes when it does not (silent truncation, non-negative
return). -/
theorem control_write_read_roundtrip (input : List Nat) (off len0 : Nat)
    (s : MState) :
    (procfile_write input off none s).1 = ((min input.length (MAX_SIZE - 1) : Nat) : Int)
    ∧ (procfile_write input off none s).2.2.card_size
        = min input.length (MAX_SIZE - 1)
    ∧ (input.length < MAX_SIZE →
        (procfile_read len0 0 false (procfile_write input off none s).2.2).2.2
          = input)
    ∧ (MAX_SIZE ≤ input.length →
        (procfile_read len0 0 false (procfile_write input off none s).2.2).2.2
          = input.take (MAX_SIZE - 1)) := by
  obtain ⟨hmin, hle, hlt⟩ := procfile_write_cap input
  have hms : MAX_SIZE = 1024 := rfl
  have hw1 : (procfile_write input off none s).1
      = ((if input.length ≥ MAX_SIZE then MAX_SIZE - 1 else input.length : Nat) : Int) := rfl
  have hwsz : (procfile_write input off none s).2.2.card_size
      = if input.length ≥ MAX_SIZE then MAX_SIZE - 1 else input.length := rfl
  have hwcard : (procfile_write input off none s).2.2.card
      = input.take (if input.length ≥ MAX_SIZE then MAX_SIZE - 1 else input.length)
        ++ [0] ++ s.card.drop
          ((if input.length ≥ MAX_SIZE then MAX_SIZE - 1 else input.length) + 1) := rfl
  refine ⟨by rw [hw1, hmin], by rw [hwsz, hmin], ?_, ?_⟩
  all_goals intro hlen
  · -- input fits: the accepted count is the whole input
    have hn : (if input.length ≥ MAX_SIZE then MAX_SIZE - 1 else input.length)
        = input.length := by omega
    by_cases hz : input.length = 0
    · have hnil : input = [] := List.eq_nil_of_length_eq_zero hz
      subst hnil
      have hzz : (procfile_write [] off none s).2.2.card_size = 0 := by
        rw [hwsz]; omega
      simp [procfile_read, hzz]
    · have hsz : (procfile_write input off none s).2.2.card_size ≠ 0 := by
        rw [hwsz]; omega
      have hread : (procfile_read len0 0 false
          (procfile_write input off none s).2.2).2.2
          = ((procfile_write input off none s).2.2.card).take
              ((procfile_write input off none s).2.2.card_size) := by
        simp [procfile_read, hsz]
      rw [hread, hwsz, hwcard, hn, List.append_assoc]
      rw [List.take_left' (by rw [List.length_take]; omega)]
      exact List.take_length input
  · -- input too long: the accepted count is MAX_SIZE - 1
    have hn : (if input.length ≥ MAX_SIZE then MAX_SIZE - 1 else input.length)
        = MAX_SIZE - 1 := by omega
    have hsz : (procfile_write input off none s).2.2.card_size ≠ 0 := by
      rw [hwsz]; omega
    have hread : (procfile_read len0 0 false
        (procfile_write input off none s).2.2).2.2
        = ((procfile_write input off none s).2.2.card).take
            ((procfile_write input off none s).2.2.card_size) := by
      simp [procfile_read, hsz]
    rw [hread, hwsz, hwcard, hn, List.append_assoc]
    exact List.take_left' (by rw [List.length_take]; omega)

/-- Witness for C2: writing "AB" then reading from a fresh cursor yields
"AB" again. -/
theorem control_write_read_roundtrip_witness :
    (procfile_read 10 0 false (procfile_write [65, 66] 0 none initState).2.2).2.2
      = [65, 66] :=
  (control_write_read_roundtrip [65, 66] 0 10 initState).2.2.1 (by decide)

/-- C3 counterexample: with card "AB" stored, a control read requesting
only 1 byte transfers 2 bytes to the caller, exceeding the requested
length. -/
theorem procfile_read_exceeds_requested_length :
    ¬ (((procfile_read 1 0 false
          (procfile_write [65, 66] 0 none initState).2.2).2.2).length ≤ 1) := by
  decide

/-- C3 amended: the control read ignores the caller's requested length
entirely — the result is the same for any two requested lengths — and at
cursor 0 with a non-empty card it transfers exactly `card_size` bytes,
which may exceed the requested length. -/
theorem procfile_read_transfers_full_card (len : Nat) (s : MState)
    (hI : Inv s) (h : s.card_size ≠ 0) :
    ((procfile_read len 0 false s).2.2).length = s.card_size
    ∧ ∀ len2 off f, procfile_read len2 off f s = procfile_read len off f s := by
  obtain ⟨h1, h2⟩ := hI
  constructor
  · have hread : (procfile_read len 0 false s).2.2 = s.card.take s.card_size := by
      simp [procfile_read, h]
    rw [hread, List.length_take]
    omega
  · intro len2 off f
    rfl

/-- Witness for C3's amended statement: with card "AB" stored, a read
requesting 1 byte transfers 2 bytes. -/
theorem procfile_read_transfers_full_card_witness :
    ((procfile_read 1 0 false
        (procfile_write [65, 66] 0 none initState).2.2).2.2).length = 2 :=
  ((procfile_read_transfers_full_card 1
      (procfile_write [65, 66] 0 none initState).2.2
      (Inv_procfile_write [65, 66] 0 none initState Inv_initState)
      (by decide)).1).trans (by decide)

/-- Helper: `device_read` is determined by the card contents and length —
the occupancy flag and any other state play no part. -/
theorem device_read_eq_of_card_eq (n off : Nat) (f : Option Nat)
    (s t : MState) (hc : s.card = t.card) (hs : s.card_size = t.card_size) :
    device_read n off f s = device_read n off f t := by
  unfold device_read readBytes
  rw [hc, hs]

/-- Helper: the return value and the delivered bytes of `device_read` do
not depend on the file offset. -/
theorem device_read_proj_offset (n off1 off2 : Nat) (f : Option Nat)
    (s : MState) :
    (device_read n off1 f s).1 = (device_read n off2 f s).1
    ∧ (device_read n off1 f s).2.2 = (device_read n off2 f s).2.2 := by
  unfold device_read
  by_cases hz : s.card_size = 0
  · simp [hz]
  · cases f with
    | none => simp [hz]
    | some j => by_cases hj : j < n <;> simp [hz, hj]

/-- C8: the bytes a data-endpoint read delivers depend only on the stored
card and the requested length, never on the cursor or prior reads: two
states agreeing on the card give identical results at any two offsets.
Concretely, two consecutive length-3 reads on card "AB" both yield "ABA",
and after changing the card from "A" to "BC" the very next read of
length 5 yields "BCBCB" with no stale bytes. -/
theorem device_read_history_noninterference (n off1 off2 : Nat)
    (f : Option Nat) (s t : MState) (hc : s.card = t.card)
    (hs : s.card_size = t.card_size) :
    (device_read n off1 f s).1 = (device_read n off2 f t).1
    ∧ (device_read n off1 f s).2.2 = (device_read n off2 f t).2.2
    ∧ (device_read 3 0 none
        (procfile_write [65, 66] 0 none initState).2.2).2.2 = [65, 66, 65]
    ∧ (device_read 3 3 none
        (procfile_write [65, 66] 0 none initState).2.2).2.2 = [65, 66, 65]
    ∧ (device_read 5 0 none
        (procfile_write [65] 0 none initState).2.2).2.2 = [65, 65, 65, 65, 65]
    ∧ (device_read 5 5 none
        (procfile_write [66, 67] 0 none
          (procfile_write [65] 0 none initState).2.2).2.2).2.2
      = [66, 67, 66, 67, 66] := by
  have heq := device_read_eq_of_card_eq n off1 f s t hc hs
  have hoff := device_read_proj_offset n off1 off2 f t
  refine ⟨?_, ?_, by decide, by decide, by decide, by decide⟩
  · rw [heq]; exact hoff.1
  · rw [heq]; exact hoff.2

/-- Witness for C8 at card "AB", offsets 0 and 3. -/
theorem device_read_history_noninterference_witness :
    (device_read 3 0 none (procfile_write [65, 66] 0 none initState).2.2).2.2
      = (device_read 3 3 none
          (procfile_write [65, 66] 0 none initState).2.2).2.2 :=
  (device_read_history_noninterference 3 0 3 none
    (procfile_write [65, 66] 0 none initState).2.2
    (procfile_write [65, 66] 0 none initState).2.2 rfl rfl).2.1

/-- C9: the store invariant `0 ≤ card_size < MAX_SIZE` (with the buffer
keeping its 1024-byte extent) holds at process start and is preserved by
every operation of both endpoints — including control writes of any size,
faulting or not. -/
theorem store_invariant_preserved (s : MState) (hI : Inv s) :
    Inv initState
    ∧ (∀ input off f, Inv (procfile_write input off f s).2.2)
    ∧ Inv (device_open s).2
    ∧ Inv (device_release s).2
    ∧ ∀ len off, Inv (device_write len off s).2.2 := by
  refine ⟨Inv_initState, fun input off f => Inv_procfile_write input off f s hI,
    ?_, hI, fun len off => hI⟩
  unfold device_open
  split
  · exact hI
  · exact hI

/-- Witness for C9: the invariant holds after writing "AB" from the
initial state. -/
theorem store_invariant_preserved_witness :
    Inv (procfile_write [65, 66] 0 none initState).2.2 :=
  (store_invariant_preserved initState Inv_initState).2.1 [65, 66] 0 none

/-- C10 counterexample: after storing bytes 7 8 9, a write of [1, 2]
whose user-buffer copy faults after 1 byte reports `-EFAULT` with
`card_size` already set to 2, but a subsequent control read returns
[1, 0] — the copied prefix plus zero padding — and not the first 2 old
buffer bytes [7, 8]: the stored content is mutated, so the failed write
does not leave the old bytes to be read back. -/
theorem procfile_write_fault_keeps_old_bytes_refuted :
    (procfile_read 10 0 false
        (procfile_write [1, 2] 0 (some 1)
          (procfile_write [7, 8, 9] 0 none initState).2.2).2.2).2.2 = [1, 0]
    ∧ ¬ ((procfile_read 10 0 false
        (procfile_write [1, 2] 0 (some 1)
          (procfile_write [7, 8, 9] 0 none initState).2.2).2.2).2.2
      = ((procfile_write [7, 8, 9] 0 none initState).2.2).card.take 2) := by
  refine ⟨?_, ?_⟩ <;> decide

/-- C10 (amended): a control write whose user-buffer copy faults after
`k` of the `n = min(len(input), MAX_SIZE - 1)` bytes is not atomic: it
reports `-EFAULT` and leaves the offset alone, but `card_size` has
already been set to `n`, and the buffer now holds the copied `k`-byte
prefix of the input followed by `n - k` zero bytes (`copy_from_user`
zero-pads the uncopied destination) — so a subsequent control read
returns the new length's worth of that partially copied, zero-padded
content, not the old buffer bytes. -/
theorem procfile_write_fault_not_atomic (input : List Nat) (off len0 k : Nat)
    (s : MState) (hk : k < min input.length (MAX_SIZE - 1)) :
    (procfile_write input off (some k) s).1 = -EFAULT
    ∧ (procfile_write input off (some k) s).2.1 = off
    ∧ (procfile_write input off (some k) s).2.2.card_size
        = min input.length (MAX_SIZE - 1)
    ∧ (procfile_read len0 0 false (procfile_write input off (some k) s).2.2).2.2
        = input.take k
          ++ List.replicate (min input.length (MAX_SIZE - 1) - k) 0 := by
  obtain ⟨hmin, hle, hlt⟩ := procfile_write_cap input
  have hkn : k < (if input.length ≥ MAX_SIZE then MAX_SIZE - 1 else input.length) := by
    omega
  have hstate : procfile_write input off (some k) s
      = (-EFAULT, off,
          { s with
            card := input.take k
              ++ List.replicate
                ((if input.length ≥ MAX_SIZE then MAX_SIZE - 1 else input.length) - k) 0
              ++ s.card.drop
                (if input.length ≥ MAX_SIZE then MAX_SIZE - 1 else input.length),
            card_size :=
              if input.length ≥ MAX_SIZE then MAX_SIZE - 1 else input.length }) := by
    simp only [procfile_write]
    rw [if_pos hkn]
  refine ⟨by rw [hstate], by rw [hstate], by rw [hstate]; exact hmin, ?_⟩
  have hsz : (procfile_write input off (some k) s).2.2.card_size ≠ 0 := by
    rw [hstate]
    show ¬((if input.length ≥ MAX_SIZE then MAX_SIZE - 1 else input.length) = 0)
    omega
  have hread : (procfile_read len0 0 false
      (procfile_write input off (some k) s).2.2).2.2
      = ((procfile_write input off (some k) s).2.2.card).take
          ((procfile_write input off (some k) s).2.2.card_size) := by
    simp [procfile_read, hsz]
  rw [hread, hstate]
  show (input.take k
      ++ List.replicate
        ((if input.length ≥ MAX_SIZE then MAX_SIZE - 1 else input.length) - k) 0
      ++ s.card.drop
        (if input.length ≥ MAX_SIZE then MAX_SIZE - 1 else input.length)).take
      (if input.length ≥ MAX_SIZE then MAX_SIZE - 1 else input.length)
    = input.take k ++ List.replicate (min input.length (MAX_SIZE - 1) - k) 0
  rw [List.take_left' (by
    rw [List.length_append, List.length_take, List.length_replicate]
    omega)]
  rw [hmin]

/-- Witness for C10: storing bytes 7 8 9 and then writing [1, 2] with a
fault after 1 byte reports `-EFAULT`, sets length 2, and a read returns
the 1-byte prefix [1] plus one zero-pad byte. -/
theorem procfile_write_fault_not_atomic_witness :
    (procfile_write [1, 2] 0 (some 1)
        (procfile_write [7, 8, 9] 0 none initState).2.2).1 = -EFAULT
    ∧ (procfile_read 10 0 false
          (procfile_write [1, 2] 0 (some 1)
            (procfile_write [7, 8, 9] 0 none initState).2.2).2.2).2.2
        = [1, 2].take 1
          ++ List.replicate (min ([1, 2] : List Nat).length (MAX_SIZE - 1) - 1) 0 := by
  have h := procfile_write_fault_not_atomic [1, 2] 0 10 1
    (procfile_write [7, 8, 9] 0 none initState).2.2 (by decide)
  exact ⟨h.1, h.2.2.2⟩

end Magician
